import Mathlib

/-!
Verification development for the sandboxed filesystem layer of the media-store
backend (`Backend/app/api/v1/files.py`, `Backend/app/api/v1/media.py`,
`Backend/app/services/tmdb.py`).

Paths are modelled as POSIX path strings.  The Python string/`os.path`/`pathlib`
primitives used by the code are embedded over `String`:

* `normpath`      — `os.path.normpath` (POSIX rules, including the special
                    treatment of exactly two leading slashes);
* `pathlibJoin`   — `pathlib.PurePosixPath.joinpath` rendered back to a string
                    (empty and `.` components are dropped, an absolute right
                    operand replaces the left one, `..` is kept verbatim);
* `inParents`     — `base in p.parents` (proper segment-wise ancestor);
* `pyStrip`       — `s.strip().strip("/")`;
* `strStarts`     — `str.startswith`.

Filesystem observation (`Path.resolve`, `Path.exists`, `Path.is_dir`,
`Path.is_file`) is abstracted into an `FsModel`; `res` models `Path.resolve`
(canonicalisation including symlink traversal), so concrete models can express
both the symlink-free filesystem (`res = normpath`) and symlinked ones.
-/

/-- Character-list version of `str.startswith`: the first list leads the second. -/
def listLeads : List Char → List Char → Bool
  | [], _ => true
  | _ :: _, [] => false
  | a :: as, b :: bs => a == b && listLeads as bs

/-- Python `s.startswith(pre)`. -/
def strStarts (s pre : String) : Bool := listLeads pre.data s.data

/-- Python `PurePosixPath.is_absolute()` / `os.path.isabs`. -/
def isAbsolute (s : String) : Bool := strStarts s "/"

/-- Segment-wise leading-sublist test on segment lists. -/
def segsLead : List String → List String → Bool
  | [], _ => true
  | _ :: _, [] => false
  | a :: as, b :: bs => a == b && segsLead as bs

/-- `s.split("/")` over a character list (kernel-reducible replacement for
`String.splitOn "/"`; `acc` holds the current piece, reversed). -/
def splitSlash (acc : List Char) : List Char → List String
  | [] => [String.mk acc.reverse]
  | c :: cs =>
    if c = '/' then String.mk acc.reverse :: splitSlash [] cs
    else splitSlash (c :: acc) cs

/-- Raw nonempty path segments of a string (split on `/`). -/
def rawSegs (s : String) : List String :=
  (splitSlash [] s.data).filter (fun x => x ≠ "")

/-- Path segments as parsed by `pathlib`: empty and `.` components are dropped,
`..` is kept. -/
def plibSegs (s : String) : List String :=
  (splitSlash [] s.data).filter (fun x => x ≠ "" && x ≠ ".")

/-- Join segments with `/` (kernel-reducible replacement for
`String.intercalate "/"`). -/
def joinSegs : List String → String
  | [] => ""
  | [x] => x
  | x :: y :: xs => x ++ "/" ++ joinSegs (y :: xs)

/-- Leading-slash shape kept by POSIX `normpath` and `pathlib`: exactly two
leading slashes are preserved, any other number collapses to one. -/
def slashPre (s : String) : String :=
  if strStarts s "//" && !strStarts s "///" then "//"
  else if strStarts s "/" then "/" else ""

/-- Segment pass of `os.path.normpath`: drop `.`, resolve `..` lexically
(`acc` holds the output so far, reversed). -/
def normAux (abs : Bool) (acc : List String) : List String → List String
  | [] => acc.reverse
  | s :: rest =>
    if s = "." then normAux abs acc rest
    else if s = ".." then
      match acc with
      | [] => normAux abs (if abs then [] else [".."]) rest
      | t :: ts =>
        if t = ".." then normAux abs (".." :: t :: ts) rest
        else normAux abs ts rest
    else normAux abs (s :: acc) rest

/-- `os.path.normpath` for POSIX paths. -/
def normpath (s : String) : String :=
  match normAux (slashPre s ≠ "") [] (rawSegs s) with
  | [] => if slashPre s = "" then "." else slashPre s
  | segs => slashPre s ++ joinSegs segs

/-- Render a `pathlib.PurePosixPath` built from a single string back to a
string (drops empty and `.` components, keeps `..`). -/
def plibRender (s : String) : String :=
  match plibSegs s with
  | [] => if slashPre s = "" then "." else slashPre s
  | segs => slashPre s ++ joinSegs segs

/-- `base.joinpath(child)` (a.k.a. `base / child`) rendered to a string, for a
`base` that is already in canonical rendered form (no trailing slash).  An
absolute `child` replaces `base`; empty and `.` components of `child` vanish. -/
def pathlibJoin (base child : String) : String :=
  if isAbsolute child then plibRender child
  else
    match plibSegs child with
    | [] => base
    | segs => (if base = "/" then "/" else base ++ "/") ++ joinSegs segs

/-- Python `base in p.parents` for `pathlib` paths: `base` is a proper
segment-wise ancestor of `p` with the same absoluteness. -/
def inParents (base p : String) : Bool :=
  (isAbsolute base == isAbsolute p)
    && segsLead (plibSegs base) (plibSegs p)
    && plibSegs base != plibSegs p

/-- ASCII whitespace stripped by Python `str.strip()`. -/
def isPySpace (c : Char) : Bool :=
  c = ' ' || c = '\t' || c = '\n' || c = '\r' || c = '\x0b' || c = '\x0c'

/-- Strip characters satisfying `p` from both ends of a character list. -/
def stripEnds (p : Char → Bool) (cs : List Char) : List Char :=
  ((cs.dropWhile p).reverse.dropWhile p).reverse

/-- Python `s.strip()` followed by `s.strip("/")`. -/
def pyStrip (s : String) : String :=
  String.mk (stripEnds (fun c => c = '/') (stripEnds isPySpace s.data))

instance {ε α : Type} [DecidableEq ε] [DecidableEq α] :
    DecidableEq (Except ε α) := fun a b =>
  match a, b with
  | .error e, .error e' =>
    if h : e = e' then .isTrue (by rw [h]) else .isFalse (by simp [h])
  | .error _, .ok _ => .isFalse (by simp)
  | .ok _, .error _ => .isFalse (by simp)
  | .ok v, .ok v' =>
    if h : v = v' then .isTrue (by rw [h]) else .isFalse (by simp [h])

/-- Abstract view of the filesystem observations used by the handlers.
`res` models `pathlib.Path.resolve()` (canonicalisation, following symlinks);
`ex`, `isDir`, `isFile` model `exists()`, `is_dir()`, `is_file()`. -/
structure FsModel where
  res : String → String
  ex : String → Bool
  isDir : String → Bool
  isFile : String → Bool

/-- Error taxonomy of the handlers (HTTP status + detail collapsed to a tag):
`invalidPath` = 400 "Invalid path request"/"Invalid path",
`outOfBounds` = 403 "Access Denied: Path traversal detected",
`notFound` = 404, `typeMismatch` = 400 type-consistency failures,
`internal` = 500.  `forbidden` is the `ForbiddenOperation` outcome of the
spec's taxonomy (e.g. deleting the root); it is included so that statements
about it are expressible — no handler in the source ever produces it. -/
inductive ApiError where
  | invalidPath
  | outOfBounds
  | notFound
  | typeMismatch
  | alreadyExists
  | forbidden
  | internal
deriving DecidableEq, Repr

/-- `get_real_path` from `files.py`: normalise, reject absolute or
`..`-leading normal forms, join onto `MEDIA_ROOT_PATH`, resolve, then check
containment with `str(full_path).startswith(str(root.resolve()))` — a plain
string-prefix test — and finally require existence. -/
def get_real_path (M : FsModel) (media_root user_path : String) :
    Except ApiError String :=
  if isAbsolute (normpath user_path) || strStarts (normpath user_path) ".." then
    .error .invalidPath
  else if !strStarts (M.res (pathlibJoin media_root (normpath user_path)))
      (M.res media_root) then
    .error .outOfBounds
  else if !M.ex (M.res (pathlibJoin media_root (normpath user_path))) then
    .error .notFound
  else .ok (M.res (pathlibJoin media_root (normpath user_path)))

/-- `resolve_sub` from the `move_copy` handler in `files.py`: strip the input,
join onto the resolved root, resolve, and accept iff the result is the root
itself or has the root among its `parents`. -/
def resolve_sub (M : FsModel) (base_root path_str : String) :
    Except ApiError String :=
  let rel := pyStrip (if path_str = "" then "." else path_str)
  let p := M.res (pathlibJoin base_root rel)
  if !(inParents base_root p || p == base_root) then .error .invalidPath
  else .ok p

/-- Request body of `POST /delete`. -/
structure DeleteRequest where
  path : String
  name : String
  is_dir : Bool
deriving DecidableEq, Repr

/-- The validation/dispatch logic of the `delete_entry` handler in `files.py`,
up to the point where it irrevocably calls `shutil.rmtree(target)` /
`target.unlink()`.  Returns the path the handler proceeds to delete. -/
def delete_entry (M : FsModel) (base_root : String) (req : DeleteRequest) :
    Except ApiError String :=
  let rel := pyStrip (if req.path = "" then "." else req.path)
  let real_dir := M.res (pathlibJoin base_root rel)
  if !(inParents base_root real_dir || real_dir == base_root) then
    .error .invalidPath
  else
    let target := pathlibJoin real_dir req.name
    if !M.ex target then .error .notFound
    else if req.is_dir && !M.isDir target then .error .typeMismatch
    else if !req.is_dir && !M.isFile target then .error .typeMismatch
    else .ok target

/-- Request body of `POST /move_copy` (`mode` is `"copy"` or `"cut"`). -/
structure MoveCopyRequest where
  src_path : String
  dst_path : String
  name : String
  is_dir : Bool
  isCopy : Bool
deriving DecidableEq, Repr

/-- The validation logic of the `move_or_copy` handler in `files.py`, up to
the point where it calls `shutil.copytree`/`copy2`/`move`.  Returns the
`(src, dst)` pair the handler proceeds to operate on. -/
def move_or_copy (M : FsModel) (base_root : String) (req : MoveCopyRequest) :
    Except ApiError (String × String) :=
  match resolve_sub M base_root req.src_path with
  | .error e => .error e
  | .ok src_dir =>
    match resolve_sub M base_root req.dst_path with
    | .error e => .error e
    | .ok dst_dir =>
      if !M.ex (pathlibJoin src_dir req.name) then .error .notFound
      else if req.is_dir && !M.isDir (pathlibJoin src_dir req.name) then
        .error .typeMismatch
      else if !req.is_dir && !M.isFile (pathlibJoin src_dir req.name) then
        .error .typeMismatch
      else if M.ex (pathlibJoin dst_dir req.name) then .error .alreadyExists
      else .ok (pathlibJoin src_dir req.name, pathlibJoin dst_dir req.name)

/-- Symlink-free filesystem in which every path exists except the single
destination `/root/dst/../x.txt` (so a `move_copy` request can pass its
destination-collision check). -/
def Mmc : FsModel :=
  ⟨normpath, fun s => s != "/root/dst/../x.txt", fun _ => true, fun _ => true⟩

/-- Symlink-free filesystem in which every path exists, both as seen by
`is_dir` and by `is_file` queries (each query answered affirmatively). -/
def Mall : FsModel := ⟨normpath, fun _ => true, fun _ => true, fun _ => true⟩

/-- Symlink-free filesystem in which no queried path exists. -/
def Mnone : FsModel := ⟨normpath, fun _ => false, fun _ => false, fun _ => false⟩

/-- Symlink-free filesystem in which every path exists and is a directory
(and consequently nothing is a regular file) — a consistent model of a pure
directory tree. -/
def Mdirs : FsModel := ⟨normpath, fun _ => true, fun _ => true, fun _ => false⟩

/-- Adversarial filesystem for the string-containment check: inside
MediaRoot `/root` the entry `evil` is a symbolic link to the sibling
directory `/root-evil`, so `Path("/root/evil").resolve()` yields
`/root-evil`; every other path resolves lexically, and every path exists. -/
def Mevil : FsModel :=
  ⟨fun s => if s = "/root/evil" then "/root-evil" else normpath s,
   fun _ => true, fun _ => true, fun _ => true⟩

/-- Extension part of `os.path.splitext(p)[1]` (POSIX): the suffix of the
basename from its last `.`, unless the basename's only dots are leading. -/
def splitextExt (p : String) : String :=
  let b := (splitSlash [] p.data).getLastD ""
  let core := b.data.dropWhile (fun c => c = '.')
  if core.contains '.' then
    String.mk ('.' :: (b.data.reverse.takeWhile (fun c => c ≠ '.')).reverse)
  else ""

/-- Kernel-reducible ASCII lowercase map: agrees with Python `str.lower()`
exactly on ASCII data (`Char.toLower` folds only `A`–`Z`).  It is used where
the folded data is ASCII (video/poster file extensions, concrete ASCII
listings); statements about the browse ordering on arbitrary names
quantify over the case-folding map instead of fixing this one. -/
def strLower (s : String) : String := String.mk (s.data.map Char.toLower)

/-- `VIDEO_EXTENSIONS` from `tmdb.py`. -/
def VIDEO_EXTENSIONS : List String :=
  [".mp4", ".mkv", ".avi", ".mov", ".wmv", ".flv", ".webm", ".m4v"]

/-- `is_video_file` from `tmdb.py`. -/
def is_video_file (filename : String) : Bool :=
  VIDEO_EXTENSIONS.contains (strLower (splitextExt filename))

/-- Characters stripped from a TMDB title when building a folder name
(the raw string `\/:*?"<>|` in `upload_files`). -/
def illegalChars : List Char := ['\\', '/', ':', '*', '?', '"', '<', '>', '|']

/-- The sanitisation step of `upload_files`:
`"".join([c for c in official_title if c not in r"\/:*?<>|..."])`. -/
def sanitize_title (t : String) : String :=
  String.mk (t.data.filter (fun c => !illegalChars.contains c))

/-- Per-item report entry appended to `uploaded_details` (the free-text
failure reason and recognition status are abstracted away). -/
inductive ItemDetail where
  | stored (filename : String) (recognized : Bool)
  | skipped (filename : String)
  | failed (filename : String)
deriving DecidableEq, Repr

/-- One member of the upload batch, together with the outcome of the two
external effects the handler performs for it: whether the chunked write
completes (`writeOk`), the result of `analyze_filename` (`officialTitle`,
`none` meaning guessit/TMDB produced no match — `analyze_filename` and
`get_tmdb_info` catch their own lookup errors and return `None`), and
whether `os.makedirs` succeeds if it is invoked (`mkdirOk`). -/
structure UpItem where
  filename : String
  writeOk : Bool
  officialTitle : Option String
  mkdirOk : Bool
deriving DecidableEq, Repr

/-- State threaded through the upload loop: the set of filesystem paths in
existence, the `uploaded_details` list, and — per processed item — whether
`file.close()` was executed for that item's byte stream. -/
structure UploadState where
  fs : List String
  details : List ItemDetail
  closed : List Bool
deriving DecidableEq, Repr

/-- Result of the whole `POST /upload` handler: either the 200 response with
per-item details, or an `HTTPException` 500 that aborts the batch (the
filesystem state reached so far is carried along in both cases). -/
inductive UploadOutcome where
  | ok (st : UploadState)
  | aborted (st : UploadState)
deriving DecidableEq, Repr

/-- The save step of `upload_files` for one item (`# 4. Save the file`
onwards): skip when the target exists (note: `continue` fires before the
`try/finally`, so the stream is not closed), otherwise `open()` creates the
target and the chunked write either completes or raises — in which case the
partially written target is left in place and the item is reported failed. -/
def uploadSave (final_folder : String) (st : UploadState) (it : UpItem)
    (recognized : Bool) : UploadState :=
  let file_path := pathlibJoin final_folder it.filename
  if st.fs.contains file_path then
    ⟨st.fs, st.details ++ [.skipped it.filename], st.closed ++ [false]⟩
  else if it.writeOk then
    ⟨file_path :: st.fs, st.details ++ [.stored it.filename recognized],
     st.closed ++ [true]⟩
  else
    ⟨file_path :: st.fs, st.details ++ [.failed it.filename],
     st.closed ++ [true]⟩

/-- One iteration of the `for file in files` loop of `upload_files`:
the smart-recognition block (video check, `analyze_filename`, sanitise,
`os.makedirs` for the per-title subfolder — executed *outside* the per-item
`try`, so a `makedirs` failure propagates and aborts the whole request),
then the save step. -/
def uploadStep (base : String) (st : UploadState) (it : UpItem) :
    UploadOutcome :=
  if is_video_file it.filename then
    match it.officialTitle with
    | some t =>
      let new_sub_folder := pathlibJoin base (sanitize_title t)
      if !st.fs.contains new_sub_folder then
        if it.mkdirOk then
          .ok (uploadSave new_sub_folder
            ⟨new_sub_folder :: st.fs, st.details, st.closed⟩ it true)
        else .aborted st
      else .ok (uploadSave new_sub_folder st it true)
    | none => .ok (uploadSave base st it false)
  else .ok (uploadSave base st it false)

/-- The batch loop of `upload_files` over an already-validated destination
directory: items are processed in order; an exception escaping an item's
recognition block aborts the remainder of the batch and discards all
per-item reports (the handler turns it into a bare HTTP 500). -/
def upload_files (base : String) (st : UploadState) :
    List UpItem → UploadOutcome
  | [] => .ok st
  | it :: rest =>
    match uploadStep base st it with
    | .ok st' => upload_files base st' rest
    | .aborted st' => .aborted st'

/-- Lexicographic comparison of character lists by code point (kernel-reducible
embedding of Python's `str` comparison). -/
def charListLe : List Char → List Char → Bool
  | [], _ => true
  | _ :: _, [] => false
  | a :: as, b :: bs =>
    if decide (a < b) then true
    else if decide (b < a) then false
    else charListLe as bs

/-- Python `a <= b` on strings. -/
def strLe (a b : String) : Bool := charListLe a.data b.data

/-- Insert `x` after every element `y` of an already-sorted list with
`le y x`; combined with a left fold this is a stable sort, hence
extensionally equal to Python's (stable) `list.sort`. -/
def insertStable {α : Type} (le : α → α → Bool) (x : α) :
    List α → List α
  | [] => [x]
  | y :: ys => if le y x then y :: insertStable le x ys else x :: y :: ys

/-- Stable sort by the boolean preorder `le`; models Python `list.sort(key=…)`
(any two stable sorts w.r.t. the same preorder agree on every input). -/
def stableSort {α : Type} (le : α → α → Bool) (l : List α) : List α :=
  l.foldl (fun acc x => insertStable le x acc) []

/-- `FileItem` from `models/file.py` (the `modified` timestamp is a number). -/
structure FileItem where
  name : String
  is_dir : Bool
  modified : Nat
  size : Nat
deriving DecidableEq, Repr

/-- The sort key of `browse_directory`, `(not x.is_dir, x.name.lower())`
compared as a Python tuple (directories rank `0`, files `1`; ties broken by
code-point order on the case-folded name), parameterised by the case-folding
map `low` standing for Python's `str.lower()`.  Python's `lower()` is
Unicode-wide and is not re-implemented here: the ordering theorems below
hold for *every* map `low`, hence in particular for the program's. -/
def browseKeyWith (low : String → String) (x : FileItem) : Nat × String :=
  (if x.is_dir then 0 else 1, low x.name)

/-- Boolean form of the Python tuple order on `browseKeyWith low`. -/
def browseKeyLeWith (low : String → String) (x y : FileItem) : Bool :=
  decide ((browseKeyWith low x).1 < (browseKeyWith low y).1) ||
    (decide ((browseKeyWith low x).1 = (browseKeyWith low y).1) &&
      strLe (browseKeyWith low x).2 (browseKeyWith low y).2)

/-- The ordering step of the `browse_directory` handler:
`file_items.sort(key=lambda x: (not x.is_dir, x.name.lower()))` applied to
the items in the order `os.scandir` produced them, with case folding
abstracted as `low`. -/
def browse_directory_sortWith (low : String → String)
    (items : List FileItem) : List FileItem :=
  stableSort (browseKeyLeWith low) items

/-- The browse sort key instantiated with the ASCII case-folding map — it
agrees with Python's `str.lower()` on ASCII names, which is all the concrete
listings below use. -/
def browseKey (x : FileItem) : Nat × String := browseKeyWith strLower x

/-- The browse order instantiated with the ASCII case-folding map. -/
def browseKeyLe (x y : FileItem) : Bool := browseKeyLeWith strLower x y

/-- The `browse_directory` ordering step instantiated with the ASCII
case-folding map (sound for the ASCII-named concrete listings below). -/
def browse_directory_sort (items : List FileItem) : List FileItem :=
  browse_directory_sortWith strLower items

/-- `ALLOWED_POSTER_EXTENSIONS` from `media.py`. -/
def ALLOWED_POSTER_EXTENSIONS : List String := [".jpg", ".jpeg", ".png", ".webp"]

/-- `pathlib.PurePath(name).suffix`: extension of the final component from
its last `.`, empty when the name starts with its only `.` or ends in `.`. -/
def pathSuffix (name : String) : String :=
  let cs := name.data
  let tl := cs.reverse.takeWhile (fun c => c ≠ '.')
  if tl.length = cs.length then ""
  else if tl.length = 0 then ""
  else if cs.length - tl.length - 1 = 0 then ""
  else String.mk ('.' :: tl.reverse)

/-- A directory entry as produced by `os.scandir`. -/
structure ScanEntry where
  name : String
  isDir : Bool
  isFile : Bool
deriving DecidableEq, Repr

/-- A library card of `media.py` (`MediaItem` in `models/file.py`). -/
structure MediaItem where
  title : String
  poster_url : String
deriving DecidableEq, Repr

/-- `get_media_path` from `media.py` as a filesystem-state transformer:
resolve `MEDIA_ROOT_PATH / media_type`, check containment by string
`startswith`, then `os.makedirs(media_dir, exist_ok=True)` — which *creates*
the directory when absent.  Returns the directory together with the updated
set of existing paths. -/
def get_media_path (M : FsModel) (media_root media_type : String)
    (fs : List String) : Except ApiError (String × List String) :=
  if !strStarts (M.res (pathlibJoin media_root media_type)) (M.res media_root) then
    .error .internal
  else .ok (M.res (pathlibJoin media_root media_type),
    if fs.contains (M.res (pathlibJoin media_root media_type)) then fs
    else M.res (pathlibJoin media_root media_type) :: fs)

/-- The read-only body of `get_anime_library`: for each scandir entry of the
category directory that is a directory, find the first contained file whose
`pathlib` suffix (lowercased) is an allowed poster extension; folders with
no such file are omitted. -/
def libraryItems (category : String) (top : List ScanEntry)
    (children : String → List ScanEntry) (dirPath : String) : List MediaItem :=
  (top.filter (fun e => e.isDir)).filterMap (fun e =>
    match (children (dirPath ++ "/" ++ e.name)).find?
        (fun c => c.isFile
          && ALLOWED_POSTER_EXTENSIONS.contains (strLower (pathSuffix c.name))) with
    | some c =>
      some ⟨e.name,
        "/static_media/" ++ category ++ "/" ++ e.name ++ "/" ++ c.name⟩
    | none => none)

/-- `get_anime_library` from `media.py`: obtain (and possibly create) the
category directory via `get_media_path`, build the poster list read-only from
the `os.scandir` views `top`/`children`, and sort by title.  Returns the
library together with the filesystem state after the request. -/
def get_anime_library (M : FsModel) (media_root : String) (fs : List String)
    (top : List ScanEntry) (children : String → List ScanEntry) :
    Except ApiError (List MediaItem × List String) :=
  match get_media_path M media_root "Anime" fs with
  | .error e => .error e
  | .ok (dir, fs') =>
    .ok (stableSort (fun a b => strLe a.title b.title)
          (libraryItems "Anime" top children dir), fs')

example : normpath "Photos/../Anime" = "Anime" := by decide
example : normpath "a/../../b" = "../b" := by decide
example : normpath "" = "." := by decide
example : normpath "/" = "/" := by decide
example : normpath "." = "." := by decide
example : pathlibJoin "/root" "." = "/root" := by decide
example : pathlibJoin "/root" "../root" = "/root/../root" := by decide
example : pathlibJoin "/root" "" = "/root" := by decide
example : pathlibJoin "/root" "/etc/passwd" = "/etc/passwd" := by decide
example : pyStrip " /a/b/ " = "a/b" := by decide
example : inParents "/root" "/root/sub" = true := by decide
example : inParents "/root" "/root" = false := by decide
example : inParents "/root" "/root-evil" = false := by decide
example : get_real_path Mall "/root" "." = .ok "/root" := by decide
example : get_real_path Mall "/root" "/etc" = .error .invalidPath := by decide
example : get_real_path Mall "/root" "../root" = .error .invalidPath := by decide
example : get_real_path Mnone "/root" "sub" = .error .notFound := by decide
example : resolve_sub Mnone "/root" "sub" = .ok "/root/sub" := by decide
example : resolve_sub Mall "/root" "../root" = .ok "/root" := by decide
example : delete_entry Mall "/root" ⟨".", "", true⟩ = .ok "/root" := by decide
example : is_video_file "The.Matrix.1999.mkv" = true := by decide
example : browse_directory_sort
    [⟨"b.txt", false, 0, 0⟩, ⟨"Z", true, 0, 0⟩, ⟨"A.txt", false, 0, 0⟩]
  = [⟨"Z", true, 0, 0⟩, ⟨"A.txt", false, 0, 0⟩, ⟨"b.txt", false, 0, 0⟩] := by decide
example : browse_directory_sort [⟨"A.txt", false, 0, 0⟩, ⟨"a.txt", false, 0, 0⟩]
  = [⟨"A.txt", false, 0, 0⟩, ⟨"a.txt", false, 0, 0⟩] := by decide
example : browse_directory_sort [⟨"a.txt", false, 0, 0⟩, ⟨"A.txt", false, 0, 0⟩]
  = [⟨"a.txt", false, 0, 0⟩, ⟨"A.txt", false, 0, 0⟩] := by decide
example : get_anime_library Mall "/root" ["/root"] [] (fun _ => [])
  = .ok ([], ["/root/Anime", "/root"]) := by decide
example : pathSuffix "poster.JPG" = ".JPG" := by decide
example : pathSuffix ".bashrc" = "" := by decide
example : is_video_file "a.txt" = false := by decide
example : splitextExt ".bashrc" = "" := by decide
example : sanitize_title "a/b:c?" = "abc" := by decide
example : upload_files "/data" ⟨["/data"], [], []⟩ [⟨"a.bin", false, none, true⟩]
  = .ok ⟨["/data/a.bin", "/data"], [.failed "a.bin"], [true]⟩ := by decide
example : upload_files "/data" ⟨["/data/a.txt", "/data"], [], []⟩
    [⟨"a.txt", true, none, true⟩]
  = .ok ⟨["/data/a.txt", "/data"], [.skipped "a.txt"], [false]⟩ := by decide
example : upload_files "/data" ⟨["/data"], [], []⟩
    [⟨"The.Matrix.1999.mkv", true, some "The Matrix", false⟩,
     ⟨"b.txt", true, none, true⟩]
  = .aborted ⟨["/data"], [], []⟩ := by decide

/-! ### Helper lemmas about the path-string primitives -/

theorem listLeads_slash {d : List Char} :
    listLeads ['/'] d = true ↔ ∃ t, d = '/' :: t := by
  cases d with
  | nil => simp [listLeads]
  | cons c cs =>
    simp only [listLeads]
    constructor
    · intro h
      simp only [Bool.and_eq_true, beq_iff_eq] at h
      exact ⟨cs, by rw [← h.1]⟩
    · rintro ⟨t, ht⟩
      injection ht with h1 h2
      subst h1; subst h2
      simp [listLeads]

theorem isAbsolute_iff {s : String} :
    isAbsolute s = true ↔ ∃ t, s.data = '/' :: t := by
  unfold isAbsolute strStarts
  rw [show ("/" : String).data = ['/'] from rfl]
  exact listLeads_slash

theorem isAbsolute_data {s : String} (h : isAbsolute s = true) :
    ∃ t, s.data = '/' :: t := isAbsolute_iff.mp h

theorem isAbsolute_of_data {s : String} {t : List Char} (h : s.data = '/' :: t) :
    isAbsolute s = true := isAbsolute_iff.mpr ⟨t, h⟩

theorem isAbsolute_append {b x : String} (h : isAbsolute b = true) :
    isAbsolute (b ++ x) = true := by
  obtain ⟨t, ht⟩ := isAbsolute_data h
  refine isAbsolute_of_data (t := t ++ x.data) ?_
  rw [String.data_append, ht]; rfl

theorem slashPre_abs {s : String} (h : isAbsolute s = true) :
    isAbsolute (slashPre s) = true := by
  unfold slashPre
  by_cases h1 : (strStarts s "//" && !strStarts s "///") = true
  · rw [if_pos h1]; decide
  · rw [if_neg h1]
    have h2 : strStarts s "/" = true := h
    rw [if_pos h2]; decide

theorem slashPre_ne_empty {s : String} (h : isAbsolute s = true) :
    slashPre s ≠ "" := by
  have := slashPre_abs h
  intro h0
  rw [h0] at this
  exact absurd this (by decide)

theorem normpath_abs {s : String} (h : isAbsolute s = true) :
    isAbsolute (normpath s) = true := by
  have hp := slashPre_abs h
  have hne := slashPre_ne_empty h
  unfold normpath
  cases hm : normAux (decide (slashPre s ≠ "")) [] (rawSegs s) with
  | nil =>
    show isAbsolute (if slashPre s = "" then "." else slashPre s) = true
    rw [if_neg hne]; exact hp
  | cons a l =>
    show isAbsolute (slashPre s ++ joinSegs (a :: l)) = true
    exact isAbsolute_append hp

theorem plibRender_abs {s : String} (h : isAbsolute s = true) :
    isAbsolute (plibRender s) = true := by
  have hp := slashPre_abs h
  have hne := slashPre_ne_empty h
  unfold plibRender
  cases hm : plibSegs s with
  | nil =>
    show isAbsolute (if slashPre s = "" then "." else slashPre s) = true
    rw [if_neg hne]; exact hp
  | cons a l =>
    show isAbsolute (slashPre s ++ joinSegs (a :: l)) = true
    exact isAbsolute_append hp

theorem pathlibJoin_abs {b c : String} (h : isAbsolute b = true) :
    isAbsolute (pathlibJoin b c) = true := by
  unfold pathlibJoin
  by_cases h1 : isAbsolute c = true
  · rw [if_pos h1]; exact plibRender_abs h1
  · rw [if_neg h1]
    cases hm : plibSegs c with
    | nil => exact h
    | cons a l =>
      by_cases h2 : b = "/"
      · rw [if_pos h2]; exact isAbsolute_append (by decide)
      · rw [if_neg h2]; exact isAbsolute_append (isAbsolute_append h)

/-! ### Stable-sort lemmas -/

theorem insertStable_perm {α : Type} (le : α → α → Bool) (x : α) (l : List α) :
    (insertStable le x l).Perm (x :: l) := by
  induction l with
  | nil => exact List.Perm.refl _
  | cons y ys ih =>
    unfold insertStable
    by_cases h : le y x = true
    · rw [if_pos h]
      exact (ih.cons y).trans (List.Perm.swap x y ys)
    · rw [if_neg h]

theorem stableSort_go_perm {α : Type} (le : α → α → Bool) :
    ∀ (l acc : List α),
      (List.foldl (fun acc x => insertStable le x acc) acc l).Perm (acc ++ l)
  | [], acc => by simp
  | x :: xs, acc => by
    have ih := stableSort_go_perm le xs (insertStable le x acc)
    refine ih.trans ?_
    have h1 : (insertStable le x acc ++ xs).Perm ((x :: acc) ++ xs) :=
      (insertStable_perm le x acc).append_right xs
    refine h1.trans ?_
    simpa using (@List.perm_middle _ x acc xs).symm

theorem stableSort_perm {α : Type} (le : α → α → Bool) (l : List α) :
    (stableSort le l).Perm l := by
  simpa using stableSort_go_perm le l []

theorem stableSort_length {α : Type} (le : α → α → Bool) (l : List α) :
    (stableSort le l).length = l.length :=
  (stableSort_perm le l).length_eq

theorem insertStable_sorted {α : Type} (le : α → α → Bool)
    (htot : ∀ a b, le a b = true ∨ le b a = true)
    (htrans : ∀ a b c, le a b = true → le b c = true → le a c = true)
    (x : α) (l : List α) (hl : List.Pairwise (fun a b => le a b = true) l) :
    List.Pairwise (fun a b => le a b = true) (insertStable le x l) := by
  induction l with
  | nil => exact List.Pairwise.cons (by simp) List.Pairwise.nil
  | cons y ys ih =>
    rcases List.pairwise_cons.mp hl with ⟨hy, hys⟩
    unfold insertStable
    by_cases h : le y x = true
    · rw [if_pos h]
      refine List.Pairwise.cons ?_ (ih hys)
      intro z hz
      rcases List.mem_cons.mp ((insertStable_perm le x ys).mem_iff.mp hz) with
        rfl | hz'
      · exact h
      · exact hy z hz'
    · rw [if_neg h]
      have hxy : le x y = true := (htot x y).resolve_right h
      refine List.Pairwise.cons ?_ hl
      intro z hz
      rcases List.mem_cons.mp hz with rfl | hz'
      · exact hxy
      · exact htrans x y z hxy (hy z hz')

theorem stableSort_go_sorted {α : Type} (le : α → α → Bool)
    (htot : ∀ a b, le a b = true ∨ le b a = true)
    (htrans : ∀ a b c, le a b = true → le b c = true → le a c = true) :
    ∀ (l acc : List α), List.Pairwise (fun a b => le a b = true) acc →
      List.Pairwise (fun a b => le a b = true)
        (List.foldl (fun acc x => insertStable le x acc) acc l)
  | [], _, h => h
  | x :: xs, acc, h =>
    stableSort_go_sorted le htot htrans xs (insertStable le x acc)
      (insertStable_sorted le htot htrans x acc h)

theorem stableSort_sorted {α : Type} (le : α → α → Bool)
    (htot : ∀ a b, le a b = true ∨ le b a = true)
    (htrans : ∀ a b c, le a b = true → le b c = true → le a c = true)
    (l : List α) :
    List.Pairwise (fun a b => le a b = true) (stableSort le l) :=
  stableSort_go_sorted le htot htrans l [] List.Pairwise.nil

/-! ### The code-point lexicographic order -/

theorem charListLe_cons {a b : Char} {as bs : List Char} :
    charListLe (a :: as) (b :: bs) = true ↔
      a < b ∨ (a = b ∧ charListLe as bs = true) := by
  show (if decide (a < b) = true then true
        else if decide (b < a) = true then false
        else charListLe as bs) = true ↔ _
  rcases lt_trichotomy a b with h | h | h
  · simp [h]
  · subst h
    simp [lt_irrefl a]
  · simp [h, lt_asymm h, ne_of_gt h]

theorem charListLe_total : ∀ as bs : List Char,
    charListLe as bs = true ∨ charListLe bs as = true
  | [], _ => Or.inl rfl
  | _ :: _, [] => Or.inr rfl
  | a :: as, b :: bs => by
    rcases lt_trichotomy a b with h | h | h
    · exact Or.inl (charListLe_cons.mpr (Or.inl h))
    · rcases charListLe_total as bs with h' | h'
      · exact Or.inl (charListLe_cons.mpr (Or.inr ⟨h, h'⟩))
      · exact Or.inr (charListLe_cons.mpr (Or.inr ⟨h.symm, h'⟩))
    · exact Or.inr (charListLe_cons.mpr (Or.inl h))

theorem charListLe_trans : ∀ as bs cs : List Char,
    charListLe as bs = true → charListLe bs cs = true → charListLe as cs = true
  | [], _, _, _, _ => rfl
  | a :: as, [], cs, h, _ => absurd h (by simp [charListLe])
  | _ :: _, _ :: _, [], _, h => absurd h (by simp [charListLe])
  | a :: as, b :: bs, c :: cs, h1, h2 => by
    rcases charListLe_cons.mp h1 with hab | ⟨hab, hab'⟩ <;>
      rcases charListLe_cons.mp h2 with hbc | ⟨hbc, hbc'⟩
    · exact charListLe_cons.mpr (Or.inl (lt_trans hab hbc))
    · exact charListLe_cons.mpr (Or.inl (hbc ▸ hab))
    · exact charListLe_cons.mpr (Or.inl (hab ▸ hbc))
    · exact charListLe_cons.mpr
        (Or.inr ⟨hab.trans hbc, charListLe_trans as bs cs hab' hbc'⟩)

theorem charListLe_antisymm : ∀ as bs : List Char,
    charListLe as bs = true → charListLe bs as = true → as = bs
  | [], [], _, _ => rfl
  | [], _ :: _, _, h => absurd h (by simp [charListLe])
  | _ :: _, [], h, _ => absurd h (by simp [charListLe])
  | a :: as, b :: bs, h1, h2 => by
    rcases charListLe_cons.mp h1 with hab | ⟨hab, hab'⟩ <;>
      rcases charListLe_cons.mp h2 with hba | ⟨hba, hba'⟩
    · exact absurd hba (lt_asymm hab)
    · exact absurd hab (hba ▸ lt_irrefl b)
    · exact absurd hba (hab ▸ lt_irrefl a)
    · rw [hab, charListLe_antisymm as bs hab' hba']

theorem strLe_total (a b : String) : strLe a b = true ∨ strLe b a = true :=
  charListLe_total a.data b.data

theorem strLe_trans {a b c : String} (h1 : strLe a b = true)
    (h2 : strLe b c = true) : strLe a c = true :=
  charListLe_trans a.data b.data c.data h1 h2

theorem strLe_antisymm {a b : String} (h1 : strLe a b = true)
    (h2 : strLe b a = true) : a = b := by
  have := charListLe_antisymm a.data b.data h1 h2
  cases a; cases b
  exact congrArg String.mk this

/-! ### The browse ordering -/

theorem browseKeyLe_total (low : String → String) (x y : FileItem) :
    browseKeyLeWith low x y = true ∨ browseKeyLeWith low y x = true := by
  unfold browseKeyLeWith
  rcases Nat.lt_trichotomy (browseKeyWith low x).1 (browseKeyWith low y).1 with
    h | h | h
  · left; simp [h]
  · rcases strLe_total (browseKeyWith low x).2 (browseKeyWith low y).2 with
      h' | h'
    · left; simp [h, h']
    · right; simp [h.symm, h']
  · right; simp [h]

theorem browseKeyLe_trans (low : String → String) (x y z : FileItem)
    (h1 : browseKeyLeWith low x y = true) (h2 : browseKeyLeWith low y z = true) :
    browseKeyLeWith low x z = true := by
  unfold browseKeyLeWith at h1 h2 ⊢
  simp only [Bool.or_eq_true, Bool.and_eq_true, decide_eq_true_eq] at h1 h2 ⊢
  rcases h1 with h1 | ⟨h1e, h1s⟩ <;> rcases h2 with h2 | ⟨h2e, h2s⟩
  · exact Or.inl (Nat.lt_trans h1 h2)
  · exact Or.inl (h2e ▸ h1)
  · exact Or.inl (h1e.symm ▸ h2)
  · exact Or.inr ⟨h1e.trans h2e, strLe_trans h1s h2s⟩

theorem browseKeyLe_antisymm_key {low : String → String} {x y : FileItem}
    (h1 : browseKeyLeWith low x y = true)
    (h2 : browseKeyLeWith low y x = true) :
    browseKeyWith low x = browseKeyWith low y := by
  unfold browseKeyLeWith at h1 h2
  simp only [Bool.or_eq_true, Bool.and_eq_true, decide_eq_true_eq] at h1 h2
  rcases h1 with h1 | ⟨h1e, h1s⟩ <;> rcases h2 with h2 | ⟨h2e, h2s⟩
  · exact absurd h2 (Nat.lt_asymm h1)
  · exact absurd (h2e ▸ h1) (lt_irrefl _)
  · exact absurd (h1e ▸ h2) (lt_irrefl _)
  · exact Prod.ext h1e (strLe_antisymm h1s h2s)

theorem browse_sort_det (low : String → String) (l l' : List FileItem)
    (hperm : l.Perm l')
    (hkeys : l.Pairwise (fun a b => browseKeyWith low a ≠ browseKeyWith low b)) :
    browse_directory_sortWith low l = browse_directory_sortWith low l' := by
  have hp : (browse_directory_sortWith low l).Perm
      (browse_directory_sortWith low l') :=
    (stableSort_perm (browseKeyLeWith low) l).trans
      (hperm.trans (stableSort_perm (browseKeyLeWith low) l').symm)
  have hs1 := stableSort_sorted (browseKeyLeWith low)
    (browseKeyLe_total low) (browseKeyLe_trans low) l
  have hs2 := stableSort_sorted (browseKeyLeWith low)
    (browseKeyLe_total low) (browseKeyLe_trans low) l'
  have hk1 : (stableSort (browseKeyLeWith low) l).Pairwise
      (fun a b => browseKeyWith low a ≠ browseKeyWith low b) :=
    ((stableSort_perm (browseKeyLeWith low) l).pairwise_iff
      (fun h => Ne.symm h)).mpr hkeys
  have hk2 : (stableSort (browseKeyLeWith low) l').Pairwise
      (fun a b => browseKeyWith low a ≠ browseKeyWith low b) :=
    ((stableSort_perm (browseKeyLeWith low) l').pairwise_iff
      (fun h => Ne.symm h)).mpr
      ((hperm.pairwise_iff (fun h => Ne.symm h)).mp hkeys)
  haveI : IsAntisymm FileItem
      (fun a b => browseKeyLeWith low a b = true
        ∧ browseKeyWith low a ≠ browseKeyWith low b) :=
    ⟨fun a b hab hba => absurd (browseKeyLe_antisymm_key hab.1 hba.1) hab.2⟩
  exact List.eq_of_perm_of_sorted hp (hs1.and hk1) (hs2.and hk2)

/-! ### Claim theorems -/

/-- C1: the claim says the post-join containment check accepts only when the
canonicalized MediaRoot is a prefix of the canonical result at a
path-segment boundary, so that a sibling like `/root-evil` is rejected, and
that `get_real_path` never returns a path outside MediaRoot even via
symlinks.  The code uses a plain string `startswith` test: with MediaRoot
`/root` containing a symlink `evil → /root-evil`, the input `evil` is
accepted and the handler returns `/root-evil`, which is not MediaRoot, not a
descendant of it, yet passes the string-prefix test. -/
theorem get_real_path_string_containment_admits_sibling_escape :
    get_real_path Mevil "/root" "evil" = .ok "/root-evil"
      ∧ strStarts "/root-evil" "/root" = true
      ∧ inParents "/root" "/root-evil" = false
      ∧ "/root-evil" ≠ "/root" := by decide

/-- C2: the claim says deletion of MediaRoot itself is always rejected with
`ForbiddenOperation`.  The `delete_entry` handler has no such check at all:
with an empty name, a `.` name, or a `..` name from a subdirectory, the
computed deletion target is MediaRoot itself (pathlib drops empty and `.`
parts and keeps `..`, and `/root/sub/..` aliases the root), every check
passes, and the handler proceeds to `shutil.rmtree` it.  Moreover no
request whatsoever can produce the `ForbiddenOperation` outcome: the
handler's code contains no such branch. -/
theorem delete_entry_proceeds_on_media_root :
    delete_entry Mdirs "/root" ⟨".", "", true⟩ = .ok "/root"
      ∧ delete_entry Mdirs "/root" ⟨".", ".", true⟩ = .ok "/root"
      ∧ delete_entry Mdirs "/root" ⟨"sub", "..", true⟩ = .ok "/root/sub/.."
      ∧ normpath "/root/sub/.." = "/root"
      ∧ (∀ (M : FsModel) (base_root : String) (req : DeleteRequest),
          delete_entry M base_root req ≠ Except.error ApiError.forbidden) := by
  refine ⟨by decide, by decide, by decide, by decide, ?_⟩
  intro M base_root req h
  dsimp only [delete_entry] at h
  repeat' split at h
  all_goals simp at h

/-- C3: the claim says the leaf-name validator (reject separators and `..`)
is applied to the delete target name, the move/copy entry name and each
uploaded filename.  None of these call sites validates the name: delete
accepts `../secret` and even the absolute `/etc/passwd` (pathlib join
replaces the base), move/copy accepts `../x.txt`, and upload writes an
uploaded filename `../evil.txt` outside the destination directory. -/
theorem leaf_name_validation_missing :
    delete_entry Mall "/root" ⟨".", "../secret", false⟩ = .ok "/root/../secret"
      ∧ normpath "/root/../secret" = "/secret"
      ∧ delete_entry Mall "/root" ⟨".", "/etc/passwd", false⟩ = .ok "/etc/passwd"
      ∧ move_or_copy Mmc "/root" ⟨"src", "dst", "../x.txt", false, true⟩
          = .ok ("/root/src/../x.txt", "/root/dst/../x.txt")
      ∧ upload_files "/root/up" ⟨["/root/up"], [], []⟩
          [⟨"../evil.txt", true, none, true⟩]
          = .ok ⟨["/root/up/../evil.txt", "/root/up"],
              [.stored "../evil.txt" false], [true]⟩ := by decide

/-- C4: the claim says a partially written target file is removed before the
item is reported `Failed`.  The handler's `except` branch only appends the
failure detail — there is no unlink: after a failed chunked write the target
path is still present in the filesystem state while the item is reported
failed. -/
theorem upload_failed_write_leaves_partial_target :
    upload_files "/data" ⟨["/data"], [], []⟩ [⟨"a.bin", false, none, true⟩]
      = .ok ⟨["/data/a.bin", "/data"], [.failed "a.bin"], [true]⟩
      ∧ "/data/a.bin" ∈ (["/data/a.bin", "/data"] : List String) := by decide

/-- C5: the claim says a recognition-pipeline failure (e.g. while creating
the per-title subdirectory) only downgrades that item's status and never
aborts the batch.  The recognition block runs outside the per-item `try`:
when `os.makedirs` raises for the first item, the whole request aborts with
HTTP 500, the second (perfectly fine) item is never processed, and no
per-item outcome is reported. -/
theorem upload_recognition_failure_aborts_batch :
    upload_files "/data" ⟨["/data"], [], []⟩
      [⟨"The.Matrix.1999.mkv", true, some "The Matrix", false⟩,
       ⟨"b.txt", true, none, true⟩]
      = .aborted ⟨["/data"], [], []⟩ := by decide

/-- C6: the claim says the item's byte stream is closed on every exit path,
including the `Skipped` one.  The skip branch executes `continue` before the
`try/finally` that holds `await file.close()`, so a skipped item's stream is
never closed (recorded as `closed = [false]`). -/
theorem upload_skipped_item_stream_left_open :
    upload_files "/data" ⟨["/data/a.txt", "/data"], [], []⟩
      [⟨"a.txt", true, none, true⟩]
      = .ok ⟨["/data/a.txt", "/data"], [.skipped "a.txt"], [false]⟩ := by decide

/-- C7 counterexample: the library scan is not read-only — when the category
directory `Anime` does not yet exist under MediaRoot, `get_media_path`
creates it (`os.makedirs(..., exist_ok=True)`), so the filesystem state
after the scan differs from the state before. -/
theorem library_scan_creates_category_directory :
    get_anime_library Mall "/root" ["/root"] [] (fun _ => [])
      = .ok ([], ["/root/Anime", "/root"])
      ∧ (["/root/Anime", "/root"] : List String) ≠ ["/root"] := by decide

/-- C7 (amended): the library scan mutates the filesystem only by creating
the missing category directory: every pre-existing path survives, any new
path is exactly the resolved category directory, and when that directory
already exists the scan leaves the filesystem unchanged. -/
theorem get_anime_library_fs_effect (M : FsModel) (root : String)
    (fs : List String) (top : List ScanEntry)
    (children : String → List ScanEntry) (lib : List MediaItem)
    (fs' : List String)
    (h : get_anime_library M root fs top children = .ok (lib, fs')) :
    (∀ q, q ∈ fs → q ∈ fs')
      ∧ (∀ q, q ∈ fs' → q ∈ fs ∨ q = M.res (pathlibJoin root "Anime"))
      ∧ (M.res (pathlibJoin root "Anime") ∈ fs → fs' = fs) := by
  unfold get_anime_library get_media_path at h
  by_cases hc : (!strStarts (M.res (pathlibJoin root "Anime")) (M.res root))
      = true
  · rw [if_pos hc] at h
    exact absurd h (by simp)
  · rw [if_neg hc] at h
    injection h with h1
    have h2 : (if fs.contains (M.res (pathlibJoin root "Anime")) then fs
        else M.res (pathlibJoin root "Anime") :: fs) = fs' :=
      congrArg Prod.snd h1
    by_cases hm : fs.contains (M.res (pathlibJoin root "Anime")) = true
    · rw [if_pos hm] at h2
      subst h2
      exact ⟨fun q hq => hq, fun q hq => Or.inl hq, fun _ => rfl⟩
    · rw [if_neg hm] at h2
      subst h2
      refine ⟨fun q hq => List.mem_cons_of_mem _ hq, ?_, ?_⟩
      · intro q hq
        rcases List.mem_cons.mp hq with rfl | hq'
        · exact Or.inr rfl
        · exact Or.inl hq'
      · intro hmem
        exact absurd (List.elem_iff.mpr hmem) hm

/-- C7 witness: concrete instantiation of the fs-effect theorem on a state
where the category directory is missing. -/
theorem get_anime_library_fs_effect_witness :
    (∀ q, q ∈ (["/root"] : List String) →
        q ∈ (["/root/Anime", "/root"] : List String))
      ∧ (∀ q, q ∈ (["/root/Anime", "/root"] : List String) →
          q ∈ (["/root"] : List String)
            ∨ q = Mall.res (pathlibJoin "/root" "Anime"))
      ∧ (Mall.res (pathlibJoin "/root" "Anime") ∈ (["/root"] : List String) →
          ["/root/Anime", "/root"] = (["/root"] : List String)) :=
  get_anime_library_fs_effect Mall "/root" ["/root"] [] (fun _ => []) []
    ["/root/Anime", "/root"] (by decide)

/-- C8 counterexample: the browse ordering is not deterministic for
identical directory contents — two enumerations of the same two files
`A.txt` and `a.txt` (equal as multisets) sort to different sequences,
because their sort keys tie case-insensitively and Python's stable sort
keeps the enumeration order on ties. -/
theorem browse_sort_case_tie_order_dependent :
    browse_directory_sort [⟨"A.txt", false, 0, 0⟩, ⟨"a.txt", false, 0, 0⟩]
        ≠ browse_directory_sort [⟨"a.txt", false, 0, 0⟩, ⟨"A.txt", false, 0, 0⟩]
      ∧ ([⟨"A.txt", false, 0, 0⟩, ⟨"a.txt", false, 0, 0⟩] : List FileItem).Perm
          [⟨"a.txt", false, 0, 0⟩, ⟨"A.txt", false, 0, 0⟩] :=
  ⟨by decide, List.Perm.swap _ _ _⟩

/-- C8 (amended): for every case-folding map `low` — in particular Python's
Unicode-wide `str.lower()`, on which no assumption is made — the browse
ordering returns exactly as many `FileItem` records as it is given (a
permutation of them), sorted by the Python key (directories before files,
then by case-folded name in code-point order); the output is a deterministic
function of the enumeration, and it is determined by the multiset of entries
alone whenever no two entries share a sort key (same kind and same
case-folded name) — though not in general, see the counterexample. -/
theorem browse_directory_sort_spec (low : String → String)
    (l : List FileItem) :
    (browse_directory_sortWith low l).length = l.length
      ∧ (browse_directory_sortWith low l).Perm l
      ∧ (browse_directory_sortWith low l).Pairwise
          (fun x y => browseKeyLeWith low x y = true)
      ∧ (∀ l', l.Perm l' →
          l.Pairwise (fun a b => browseKeyWith low a ≠ browseKeyWith low b) →
          browse_directory_sortWith low l = browse_directory_sortWith low l') :=
  ⟨stableSort_length (browseKeyLeWith low) l,
   stableSort_perm (browseKeyLeWith low) l,
   stableSort_sorted (browseKeyLeWith low)
     (browseKeyLe_total low) (browseKeyLe_trans low) l,
   fun l' hp hk => browse_sort_det low l l' hp hk⟩

/-- C8 witness: the sort specification instantiated with the ASCII folding
map on a concrete two-entry listing with distinct keys, discharging the
permutation and distinct-key hypotheses of the determinism conjunct. -/
theorem browse_directory_sort_spec_witness :
    (browse_directory_sortWith strLower
        [⟨"b.txt", false, 0, 0⟩, ⟨"Z", true, 0, 0⟩]).length = 2
      ∧ browse_directory_sortWith strLower
          [⟨"b.txt", false, 0, 0⟩, ⟨"Z", true, 0, 0⟩]
          = browse_directory_sortWith strLower
              [⟨"Z", true, 0, 0⟩, ⟨"b.txt", false, 0, 0⟩] := by
  have h := browse_directory_sort_spec strLower
    [⟨"b.txt", false, 0, 0⟩, ⟨"Z", true, 0, 0⟩]
  refine ⟨h.1, h.2.2.2 [⟨"Z", true, 0, 0⟩, ⟨"b.txt", false, 0, 0⟩]
    (List.Perm.swap _ _ _) ?_⟩
  refine List.Pairwise.cons ?_ (List.pairwise_singleton _ _)
  intro b hb
  rcases List.mem_singleton.mp hb with rfl
  decide

/-- C9 counterexample: `resolve` is not idempotent on the code — `.` is a
valid input resolving to MediaRoot `/root`, but feeding that canonical
output back into `get_real_path` fails with `InvalidPath` (the output is
absolute and step 2 rejects every absolute input), so
`resolve(resolve(p)) ≠ resolve(p)`. -/
theorem get_real_path_second_application_fails :
    get_real_path Mall "/root" "." = .ok "/root"
      ∧ get_real_path Mall "/root" "/root" = .error .invalidPath
      ∧ (Except.error ApiError.invalidPath : Except ApiError String)
          ≠ .ok "/root" := by decide

/-- C9 (amended): for every accepted input, the canonical output of
`get_real_path` is an absolute path, and re-applying `get_real_path` to it
always fails with `InvalidPath` — instead of the claimed idempotence, the
resolver rejects its own output (the canonical form is a fixed point only of
the underlying canonicalisation, not of `resolve` itself). -/
theorem get_real_path_rejects_canonical_output (M : FsModel)
    (root p out : String) (hroot : isAbsolute root = true)
    (hres : ∀ s, isAbsolute s = true → isAbsolute (M.res s) = true)
    (h : get_real_path M root p = .ok out) :
    get_real_path M root out = .error .invalidPath := by
  have hout : isAbsolute out = true := by
    unfold get_real_path at h
    split at h
    · exact absurd h (by simp)
    · split at h
      · exact absurd h (by simp)
      · split at h
        · exact absurd h (by simp)
        · injection h with h3
          rw [← h3]
          exact hres _ (pathlibJoin_abs hroot)
  have hc : (isAbsolute (normpath out) || strStarts (normpath out) "..")
      = true := by
    rw [normpath_abs hout]
    rfl
  unfold get_real_path
  rw [if_pos hc]

/-- C9 witness: the amended theorem applied at MediaRoot `/root` and the
accepted input `.`, whose output `/root` is indeed rejected. -/
theorem get_real_path_rejects_canonical_output_witness :
    get_real_path Mall "/root" "/root" = .error .invalidPath :=
  get_real_path_rejects_canonical_output Mall "/root" "." "/root" (by decide)
    (fun s hs => normpath_abs hs) (by decide)

/-- C10 counterexample: the two validators are not equivalent as acceptors —
on the relative input `sub` naming a non-existent location, `get_real_path`
rejects with `NotFound` while `resolve_sub` accepts; on `../root`, whose
normal form begins with `..` but which resolves back to MediaRoot,
`get_real_path` rejects with `InvalidPath` while `resolve_sub` accepts. -/
theorem validators_disagree_concrete :
    get_real_path Mnone "/root" "sub" = .error .notFound
      ∧ resolve_sub Mnone "/root" "sub" = .ok "/root/sub"
      ∧ get_real_path Mall "/root" "../root" = .error .invalidPath
      ∧ resolve_sub Mall "/root" "../root" = .ok "/root" := by decide

/-- C10 (amended): the two validators are not equivalent, and the claimed
agreement cases are exactly where they differ: for every existence oracle,
`resolve_sub` (which never consults existence and performs no lexical `..`
rejection) accepts `../root` and the non-existent `sub`, while
`get_real_path` rejects the former with `InvalidPath` and — whenever `sub`
does not exist — the latter with `NotFound`. -/
theorem validators_inequivalent (e d f : String → Bool)
    (he : e "/root/sub" = false) :
    get_real_path ⟨normpath, e, d, f⟩ "/root" "../root" = .error .invalidPath
      ∧ resolve_sub ⟨normpath, e, d, f⟩ "/root" "../root" = .ok "/root"
      ∧ get_real_path ⟨normpath, e, d, f⟩ "/root" "sub" = .error .notFound
      ∧ resolve_sub ⟨normpath, e, d, f⟩ "/root" "sub" = .ok "/root/sub" := by
  refine ⟨rfl, rfl, ?_, rfl⟩
  have key : get_real_path ⟨normpath, e, d, f⟩ "/root" "sub"
      = if (!e "/root/sub") = true then .error .notFound
        else .ok "/root/sub" := rfl
  rw [key, he]
  rfl

/-- C10 witness: the inequivalence theorem applied to the empty existence
oracle. -/
theorem validators_inequivalent_witness :
    get_real_path Mnone "/root" "../root" = .error .invalidPath
      ∧ resolve_sub Mnone "/root" "../root" = .ok "/root"
      ∧ get_real_path Mnone "/root" "sub" = .error .notFound
      ∧ resolve_sub Mnone "/root" "sub" = .ok "/root/sub" :=
  validators_inequivalent (fun _ => false) (fun _ => false) (fun _ => false) rfl
